import Mathlib

/-!
Shallow embedding of `scripts/feature_analysis.py` (Product_Extractor).

Review texts are modelled as `List Char` (Python `str`), table cells as
`Cell` (`NaN`, string, or numeric), numeric values as `ℚ`, and the Python
dictionaries produced by the script as association lists.  Python string
primitives used by the script (`in`, `str.find`, `str.split`, `str.strip`,
`str.lower`) and the two regex operations it performs
(`re.search(r"\b(alt1|...|altn)\b", text)` and
`re.sub(r"\b(good|bad|great|poor|excellent|terrible)\s*", "", bigram)`)
are embedded explicitly below.
-/

namespace ProductExtractor

/-- Python `str.lower()` applied to a string, as a character list. -/
def lower (s : String) : List Char := s.toList.map Char.toLower

/-- Does `pat` occur in `t` starting exactly at index `i`? -/
def occursAtB (t pat : List Char) (i : Nat) : Bool :=
  (t.drop i).take pat.length == pat

/-- Python `pat in t` (substring containment). -/
def containsSub (t pat : List Char) : Bool :=
  (List.range (t.length + 1)).any (occursAtB t pat)

/-- Python `t.find(pat)`: index of the leftmost occurrence (`none` for `-1`). -/
def strFind (t pat : List Char) : Option Nat :=
  (List.range (t.length + 1)).find? (occursAtB t pat)

/-- Number of indices of `t` at which `pat` occurs. -/
def countOccurrences (t pat : List Char) : Nat :=
  ((List.range (t.length + 1)).filter (occursAtB t pat)).length

/-- One token of a regex alternative: a literal character, or `.` (any
character except a newline). -/
inductive RTok where
  | lit (c : Char)
  | dot
deriving DecidableEq

/-- One alternative of an alternation group, e.g. `battery` in
`\b(battery|power|charging|charge)\b`; `user.friendly` uses `RTok.dot`. -/
abbrev RAlt := List RTok

/-- The alternative consisting of the literal characters of `s`. -/
def litAlt (s : String) : RAlt := s.toList.map RTok.lit

/-- Python regex `\w` (script inputs are ASCII): letter, digit or underscore. -/
def wordChar (c : Char) : Bool := c.isAlphanum || c == '_'

/-- Is the character at index `i` of `t` a word character? -/
def isWordAt (t : List Char) (i : Nat) : Bool :=
  match t.get? i with
  | some c => wordChar c
  | none => false

/-- Python regex `\b` at position `i` of `t` (position between `i - 1` and
`i`; positions `0` and `t.length` are boundaries next to a word character). -/
def boundaryAt (t : List Char) (i : Nat) : Bool :=
  match i with
  | 0 => isWordAt t 0
  | j + 1 => isWordAt t j != isWordAt t (j + 1)

/-- Does alternative `alt` match the characters of `t` starting at `i`? -/
def altMatchesAt (t : List Char) (alt : RAlt) (i : Nat) : Bool :=
  match alt with
  | [] => true
  | tok :: rest =>
    match t.get? i with
    | none => false
    | some c =>
      (match tok with
       | RTok.lit d => c == d
       | RTok.dot => c != '\n') && altMatchesAt t rest (i + 1)

/-- Python `re.search(r"\b(alt1|...|altn)\b", t) is not None`: some
alternative matches somewhere in `t` with word boundaries on both sides. -/
def rsearchWB (t : List Char) (alts : List RAlt) : Bool :=
  (List.range (t.length + 1)).any (fun i =>
    alts.any (fun a =>
      boundaryAt t i && altMatchesAt t a i && boundaryAt t (i + a.length)))

/-- The fixed `feature_patterns` dict of `extract_features_from_reviews`,
in Python dict insertion order. -/
def feature_patterns : List (String × List RAlt) :=
  [ ("battery", [litAlt "battery", litAlt "power", litAlt "charging", litAlt "charge"])
  , ("camera", [litAlt "camera", litAlt "photo", litAlt "picture", litAlt "image"])
  , ("display", [litAlt "screen", litAlt "display", litAlt "monitor"])
  , ("audio", [litAlt "sound", litAlt "audio", litAlt "speaker", litAlt "music", litAlt "volume"])
  , ("design", [litAlt "design", litAlt "look", litAlt "appearance", litAlt "style", litAlt "color"])
  , ("performance", [litAlt "performance", litAlt "speed", litAlt "fast", litAlt "slow", litAlt "lag"])
  , ("price", [litAlt "price", litAlt "cost", litAlt "value", litAlt "expensive", litAlt "cheap", litAlt "affordable"])
  , ("size", [litAlt "size", litAlt "weight", litAlt "portable", litAlt "compact", litAlt "heavy"])
  , ("quality", [litAlt "quality", litAlt "build", litAlt "material", litAlt "durability"])
  , ("usability", [litAlt "easy", litAlt "difficult", litAlt "user" ++ [RTok.dot] ++ litAlt "friendly", litAlt "interface", litAlt "setup"])
  , ("delivery", [litAlt "delivery", litAlt "shipping", litAlt "packaging", litAlt "arrived"])
  , ("service", [litAlt "service", litAlt "support", litAlt "help", litAlt "customer"]) ]

/-- The six adjectives removed by `re.sub` in the bigram branch, in the
alternation order of `r"\b(good|bad|great|poor|excellent|terrible)\s*"`. -/
def sentimentAdjs : List (List Char) :=
  ["good", "bad", "great", "poor", "excellent", "terrible"].map String.toList

/-- Does the literal word `w` match the characters of `t` starting at `i`? -/
def litMatchesAt (t w : List Char) (i : Nat) : Bool :=
  (t.drop i).take w.length == w

/-- At index `i` of `t`, try to match `\b(good|bad|great|poor|excellent|terrible)\s*`
(alternatives in Python leftmost-first order); on success return the index
just past the match, including the greedy `\s*`. -/
def adjMatchEnd (t : List Char) (i : Nat) : Option Nat :=
  if boundaryAt t i then
    match sentimentAdjs.find? (fun w => litMatchesAt t w i) with
    | some w =>
      some (i + w.length + ((t.drop (i + w.length)).takeWhile Char.isWhitespace).length)
    | none => none
  else none

/-- Fuel-driven scan for `re.sub`: copy characters of `t` from index `i`
onwards, deleting every match of the adjective pattern. -/
def reSubAdjAux (t : List Char) : Nat → Nat → List Char
  | 0, _ => []
  | fuel + 1, i =>
    match t.get? i with
    | none => []
    | some c =>
      match adjMatchEnd t i with
      | some e => if i < e then reSubAdjAux t fuel e else c :: reSubAdjAux t fuel (i + 1)
      | none => c :: reSubAdjAux t fuel (i + 1)

/-- Python `re.sub(r"\b(good|bad|great|poor|excellent|terrible)\s*", "", t)`. -/
def reSubAdj (t : List Char) : List Char := reSubAdjAux t (t.length + 1) 0

/-- Python `t.strip()`: remove leading and trailing whitespace. -/
def pstrip (t : List Char) : List Char :=
  ((t.dropWhile Char.isWhitespace).reverse.dropWhile Char.isWhitespace).reverse

/-- Python `t.split()`: split on whitespace runs, dropping empty pieces. -/
def splitWs (t : List Char) : List (List Char) :=
  (t.splitOnP Char.isWhitespace).filter (fun w => !w.isEmpty)

/-- One cell of the review table: `NaN`, a string, or a number. -/
inductive Cell where
  | na
  | str (s : String)
  | num (q : ℚ)
deriving DecidableEq

/-- The bigram loop of `extract_features_from_reviews` (lines 90-97): walk
adjacent word pairs, and for every bigram containing one of
good/bad/great/poor as a substring, strip the sentiment adjectives and
append the remainder to the accumulated `review_features` when it is longer
than 2 characters and not already present. -/
def addBigrams : List (List Char) → List String → List String
  | w1 :: w2 :: rest, acc =>
    let bigram := w1 ++ [' '] ++ w2
    if (["good", "bad", "great", "poor"].map String.toList).any (fun tkn => containsSub bigram tkn) then
      let f := String.mk (pstrip (reSubAdj bigram))
      let acc' := if f.length > 2 && !(acc.contains f) then acc ++ [f] else acc
      addBigrams (w2 :: rest) acc'
    else addBigrams (w2 :: rest) acc
  | _, acc => acc

/-- The per-review feature labels of `extract_features_from_reviews`
(lines 82-97): pattern labels in dict order, then bigram-derived labels.
The argument is the already-lowercased review text. -/
def reviewFeatures (review : List Char) : List String :=
  let pf := feature_patterns.filterMap (fun p =>
    if rsearchWB review p.2 then some p.1 else none)
  addBigrams (splitWs review) pf

/-- Build `collections.Counter(all_features)` as an association list whose
keys appear in first-seen order, as in a Python dict. -/
def bump : List (String × Nat) → String → List (String × Nat)
  | [], s => [(s, 1)]
  | (t, c) :: rest, s => if t == s then (t, c + 1) :: rest else (t, c) :: bump rest s

/-- Counter of a list of labels, keys in first-seen order. -/
def counterOf (l : List String) : List (String × Nat) := l.foldl bump []

/-- The `extract_features_from_reviews` function (lines 53-105): collect the
labels of every non-null review and count them. -/
def extract_features_from_reviews (reviews : List Cell) : List (String × Nat) :=
  counterOf (reviews.foldl (fun acc c =>
    match c with
    | Cell.str s => acc ++ reviewFeatures (lower s)
    | _ => acc) [])

/-- Result of a sentiment classification. -/
inductive Sentiment where
  | positive
  | negative
  | neutral
deriving DecidableEq, BEq

/-- The fixed `positive_words` list of `analyze_context_sentiment` (line 156). -/
def positive_words : List (List Char) :=
  ["good", "great", "excellent", "amazing", "love", "perfect", "awesome", "fantastic", "best"].map String.toList

/-- The fixed `negative_words` list of `analyze_context_sentiment` (line 157);
note that `worst` is listed twice in the source. -/
def negative_words : List (List Char) :=
  ["bad", "terrible", "awful", "hate", "worst", "horrible", "disappointing", "poor", "worst"].map String.toList

/-- Python `sum(1 for word in positive_words if word in context)` (line 169). -/
def positiveCount (context : List Char) : Nat :=
  (positive_words.map (fun w => if containsSub context w then 1 else 0)).sum

/-- Python `sum(1 for word in negative_words if word in context)` (line 170). -/
def negativeCount (context : List Char) : Nat :=
  (negative_words.map (fun w => if containsSub context w then 1 else 0)).sum

/-- The `analyze_context_sentiment` function (lines 152-177): find the first
occurrence of `feature` in `text`, take the window of 50 characters on each
side (clipped; the truncated subtraction realises Python `max(0, i - 50)`),
and compare the positive and negative word counts in the window. -/
def analyze_context_sentiment (text feature : List Char) : Sentiment :=
  match strFind text feature with
  | none => Sentiment.neutral
  | some i =>
    let contextStart := i - 50
    let contextEnd := min text.length (i + feature.length + 50)
    let context := (text.drop contextStart).take (contextEnd - contextStart)
    if positiveCount context > negativeCount context then Sentiment.positive
    else if negativeCount context > positiveCount context then Sentiment.negative
    else Sentiment.neutral

/-- One row of the table as seen by `analyze_feature_sentiment`: the review
cell and the rating cell at the same index (the rating cell is ignored when
the table has no rating column). -/
abbrev RowPair := Cell × Cell

/-- The `feature_ratings` list collected for a feature (lines 116-130): for
every non-null review whose lowercased text contains the feature, the
numeric value of the row's rating cell, when a rating column exists and the
cell is non-null. -/
def featureRatings (rows : List RowPair) (hasRating : Bool) (feature : String) : List ℚ :=
  rows.filterMap (fun r =>
    match r.1 with
    | Cell.str s =>
      if containsSub (lower s) feature.toList && hasRating then
        match r.2 with
        | Cell.num q => some q
        | _ => none
      else none
    | _ => none)

/-- The `feature_sentiments` list collected for a feature (lines 117-134):
one context classification per non-null review whose lowercased text
contains the feature. -/
def featureSentiments (rows : List RowPair) (feature : String) : List Sentiment :=
  rows.filterMap (fun r =>
    match r.1 with
    | Cell.str s =>
      if containsSub (lower s) feature.toList then
        some (analyze_context_sentiment (lower s) feature.toList)
      else none
    | _ => none)

/-- The per-feature record built by `analyze_feature_sentiment` (lines 141-148). -/
structure FeatureRecord where
  count : Nat
  avg_rating : ℚ
  positive_ratio : ℚ
  negative_ratio : ℚ
  neutral_ratio : ℚ
  total_mentions : Nat
deriving DecidableEq

/-- The metrics computed for one feature (lines 136-148): average rating
(0 if no ratings), positive and negative ratios over the classified
mentions (0 if none), and `neutral_ratio = 1 - positive_ratio - negative_ratio`. -/
def buildRecord (rows : List RowPair) (hasRating : Bool) (feature : String) (count : Nat) : FeatureRecord :=
  let rs := featureRatings rows hasRating feature
  let ss := featureSentiments rows feature
  let pos : ℚ := if ss.length = 0 then 0 else (ss.count Sentiment.positive : ℚ) / (ss.length : ℚ)
  let neg : ℚ := if ss.length = 0 then 0 else (ss.count Sentiment.negative : ℚ) / (ss.length : ℚ)
  { count := count
  , avg_rating := if rs.length = 0 then 0 else rs.sum / (rs.length : ℚ)
  , positive_ratio := pos
  , negative_ratio := neg
  , neutral_ratio := 1 - pos - neg
  , total_mentions := rs.length }

/-- Stable insertion by descending count (equal counts keep earlier elements
first), realising the stable sort behind `Counter.most_common`. -/
def insertByCount (x : String × Nat) : List (String × Nat) → List (String × Nat)
  | [] => [x]
  | y :: ys => if x.2 ≥ y.2 then x :: y :: ys else y :: insertByCount x ys

/-- Stable sort by descending count. -/
def sortByCountDesc (l : List (String × Nat)) : List (String × Nat) :=
  l.foldr insertByCount []

/-- Python `features.most_common(n)`. -/
def mostCommon (n : Nat) (features : List (String × Nat)) : List (String × Nat) :=
  (sortByCountDesc features).take n

/-- The `analyze_feature_sentiment` function (lines 107-150): a record for
each of the top-20 features by count. -/
def analyze_feature_sentiment (rows : List RowPair) (hasRating : Bool)
    (features : List (String × Nat)) : List (String × FeatureRecord) :=
  (mostCommon 20 features).map (fun p => (p.1, buildRecord rows hasRating p.1 p.2))

/-- The keyword list used to locate the review text column (line 25). -/
def review_keywords : List String := ["review", "text", "comment", "feedback"]

/-- The keyword list used to locate the rating column (line 36). -/
def rating_keywords : List String := ["rating", "score", "stars"]

/-- Does a column name contain one of the keywords, case-insensitively? -/
def colMatches (kws : List String) (col : String) : Bool :=
  kws.any (fun k => containsSub (lower col) k.toList)

/-- Python `[col for col in df.columns if any(keyword in col.lower() ...)][0]`,
as an `Option` (lines 24-31 and 35-37). -/
def findCol (kws : List String) (cols : List String) : Option String :=
  (cols.filter (colMatches kws)).head?

/-- A data frame: association list from column name to cells, in column order. -/
abbrev Frame := List (String × List Cell)

/-- The cells of the named column (empty if absent). -/
def getCol (df : Frame) (name : String) : List Cell :=
  ((df.find? (fun p => p.1 == name)).map Prod.snd).getD []

/-- Python `series.dropna()`. -/
def dropna (col : List Cell) : List Cell :=
  col.filter (fun c => match c with | Cell.na => false | _ => true)

/-- The `analyze_product_features` pipeline (lines 9-51) up to the derived
feature analysis; `none` models the early `return` taken when no review
text column is found, and the produced output (visualisation and report
input) is the feature-analysis table. -/
def analyze_product_features (df : Frame) : Option (List (String × FeatureRecord)) :=
  match findCol review_keywords (df.map Prod.fst) with
  | none => none
  | some reviewCol =>
    let ratingCol := findCol rating_keywords (df.map Prod.fst)
    let reviews := getCol df reviewCol
    let ratings := match ratingCol with
      | some c => getCol df c
      | none => reviews.map (fun _ => Cell.na)
    let features := extract_features_from_reviews (dropna reviews)
    some (analyze_feature_sentiment (reviews.zip ratings) ratingCol.isSome features)

/-- The five sample reviews embedded at lines 328-337 of the script. -/
def sampleReviews : List Cell :=
  [ Cell.str "Great camera quality and excellent battery life. Love the design!"
  , Cell.str "Poor audio quality but good screen display. Price is reasonable."
  , Cell.str "Amazing performance and fast charging. Camera could be better."
  , Cell.str "Terrible battery life and slow performance. Good build quality though."
  , Cell.str "Perfect size and weight. Great value for money. Audio is fantastic!" ]

/-- The ratings `[5, 3, 4, 2, 5]` of the sample data. -/
def sampleRatings : List Cell :=
  [Cell.num 5, Cell.num 3, Cell.num 4, Cell.num 2, Cell.num 5]

/-- The sample rows as seen by `analyze_feature_sentiment`. -/
def sampleRows : List RowPair := sampleReviews.zip sampleRatings

/-- The feature analysis computed on the embedded sample data. -/
def sampleAnalysis : List (String × FeatureRecord) :=
  analyze_feature_sentiment sampleRows true (extract_features_from_reviews (dropna sampleReviews))

/-! ## Spec-side definitions

These follow the wording of the specification, to be compared with the
definitions above, which are transcribed from the source. -/

/-- Window of plus or minus 50 characters around the first occurrence of the
feature substring, clipped to the text bounds (spec wording, with the lower
clip written as an integer `max`). -/
def windowSpec (text feature : List Char) : List Char :=
  match strFind text feature with
  | none => []
  | some i =>
    let s : Nat := (max 0 ((i : ℤ) - 50)).toNat
    let e : Nat := min text.length (i + feature.length + 50)
    (text.drop s).take (e - s)

/-- Number of entries of the positive word list, counted with list
multiplicity, that occur as substrings of the window (spec wording). -/
def posCountSpec (w : List Char) : Nat :=
  (positive_words.filter (fun word => containsSub w word)).length

/-- Number of entries of the negative word list, counted with list
multiplicity, that occur as substrings of the window (spec wording). -/
def negCountSpec (w : List Char) : Nat :=
  (negative_words.filter (fun word => containsSub w word)).length

/-! ## Helper lemmas -/

/-- Counting via a sum of indicator terms equals the length of the filter. -/
theorem sum_map_ite_eq_length_filter (p : α → Bool) :
    ∀ l : List α, (l.map (fun x => if p x then 1 else 0)).sum = (l.filter p).length
  | [] => rfl
  | x :: xs => by
    by_cases h : p x <;>
      simp [List.filter_cons, h, sum_map_ite_eq_length_filter p xs, Nat.add_comm]

/-- Python `pat in t` holds exactly when `t.find(pat)` succeeds. -/
theorem containsSub_iff_strFind (t p : List Char) :
    containsSub t p = true ↔ ∃ i, strFind t p = some i := by
  unfold containsSub strFind
  rw [List.any_eq_true]
  constructor
  · rintro ⟨i, hi, hp⟩
    have hs : ((List.range (t.length + 1)).find? (occursAtB t p)).isSome :=
      List.find?_isSome.mpr ⟨i, hi, hp⟩
    exact Option.isSome_iff_exists.mp hs
  · rintro ⟨i, hfind⟩
    exact ⟨i, List.mem_of_find?_eq_some hfind, List.find?_some hfind⟩

/-! ## Claim theorems -/

/-- C3: for every lowercased review text containing a given feature string,
`analyze_context_sentiment` takes the window of plus or minus 50 characters
around the first occurrence of the feature substring clipped to the text
bounds, counts the words of the fixed positive and negative lists occurring
inside that window, and returns positive iff the positive count exceeds the
negative count, negative iff the negative count exceeds the positive count,
and neutral otherwise. -/
theorem context_sentiment_characterisation (text feature : List Char)
    (h : containsSub text feature = true) :
    (analyze_context_sentiment text feature = Sentiment.positive ↔
      posCountSpec (windowSpec text feature) > negCountSpec (windowSpec text feature)) ∧
    (analyze_context_sentiment text feature = Sentiment.negative ↔
      negCountSpec (windowSpec text feature) > posCountSpec (windowSpec text feature)) ∧
    (analyze_context_sentiment text feature = Sentiment.neutral ↔
      posCountSpec (windowSpec text feature) = negCountSpec (windowSpec text feature)) := by
  obtain ⟨i, hfind⟩ := (containsSub_iff_strFind text feature).mp h
  have hmax : (max 0 ((i : ℤ) - 50)).toNat = i - 50 := by omega
  have hp : ∀ w : List Char, posCountSpec w = positiveCount w := fun w =>
    (sum_map_ite_eq_length_filter (fun word => containsSub w word) positive_words).symm
  have hn : ∀ w : List Char, negCountSpec w = negativeCount w := fun w =>
    (sum_map_ite_eq_length_filter (fun word => containsSub w word) negative_words).symm
  simp only [analyze_context_sentiment, windowSpec, hfind, hmax, hp, hn]
  generalize positiveCount ((text.drop (i - 50)).take
    (min text.length (i + feature.length + 50) - (i - 50))) = a
  generalize negativeCount ((text.drop (i - 50)).take
    (min text.length (i + feature.length + 50) - (i - 50))) = b
  refine ⟨?_, ?_, ?_⟩ <;> split_ifs with h1 h2 <;> simp_all <;> omega

/-- Witness for C3 at the concrete text `bad camera` and feature `camera`. -/
theorem context_sentiment_characterisation_witness :
    containsSub ("bad camera".toList) ("camera".toList) = true ∧
    ((analyze_context_sentiment ("bad camera".toList) ("camera".toList) = Sentiment.positive ↔
      posCountSpec (windowSpec ("bad camera".toList) ("camera".toList)) >
        negCountSpec (windowSpec ("bad camera".toList) ("camera".toList))) ∧
    (analyze_context_sentiment ("bad camera".toList) ("camera".toList) = Sentiment.negative ↔
      negCountSpec (windowSpec ("bad camera".toList) ("camera".toList)) >
        posCountSpec (windowSpec ("bad camera".toList) ("camera".toList))) ∧
    (analyze_context_sentiment ("bad camera".toList) ("camera".toList) = Sentiment.neutral ↔
      posCountSpec (windowSpec ("bad camera".toList) ("camera".toList)) =
        negCountSpec (windowSpec ("bad camera".toList) ("camera".toList)))) :=
  ⟨by decide, context_sentiment_characterisation ("bad camera".toList) ("camera".toList) (by decide)⟩

/-- C10: the positive and negative counts of `analyze_context_sentiment` are
the numbers of entries of the respective word list, counted with list
multiplicity, that occur as substrings of the window; each entry contributes
at most one; a word inside a longer word still counts (`bad` inside
`badge`); and a window containing `worst` has a negative count of at least 2
because `worst` is listed twice. -/
theorem sentiment_word_counting :
    (∀ context : List Char,
      positiveCount context = (positive_words.filter (fun w => containsSub context w)).length ∧
      negativeCount context = (negative_words.filter (fun w => containsSub context w)).length ∧
      positiveCount context ≤ positive_words.length ∧
      negativeCount context ≤ negative_words.length) ∧
    (∀ context : List Char, containsSub context ("worst".toList) = true →
      2 ≤ negativeCount context) ∧
    negativeCount ("badge".toList) = 1 ∧
    negativeCount ("bad bad bad".toList) = 1 := by
  have hpos : ∀ context : List Char,
      positiveCount context = (positive_words.filter (fun w => containsSub context w)).length :=
    fun context => sum_map_ite_eq_length_filter (fun w => containsSub context w) positive_words
  have hneg : ∀ context : List Char,
      negativeCount context = (negative_words.filter (fun w => containsSub context w)).length :=
    fun context => sum_map_ite_eq_length_filter (fun w => containsSub context w) negative_words
  refine ⟨fun context => ⟨hpos context, hneg context, ?_, ?_⟩, fun context hw => ?_, by decide, by decide⟩
  · rw [hpos context]
    exact List.length_filter_le _ _
  · rw [hneg context]
    exact List.length_filter_le _ _
  · rw [hneg context]
    have hcf : (negative_words.filter (fun w => containsSub context w)).count ("worst".toList) =
        negative_words.count ("worst".toList) := List.count_filter hw
    have htwo : negative_words.count ("worst".toList) = 2 := by decide
    have hle := List.count_le_length ("worst".toList)
      (negative_words.filter (fun w => containsSub context w))
    omega

/-- Witness for C10 at the concrete window `the worst ever`. -/
theorem sentiment_word_counting_witness :
    containsSub ("the worst ever".toList) ("worst".toList) = true ∧
    2 ≤ negativeCount ("the worst ever".toList) :=
  ⟨by decide, sentiment_word_counting.2.1 ("the worst ever".toList) (by decide)⟩

/-- Membership in the feature-analysis table comes from a top-20 feature and
its `buildRecord`. -/
theorem mem_analyze_iff {rows : List RowPair} {hasRating : Bool}
    {features : List (String × Nat)} {f : String} {rec : FeatureRecord} :
    (f, rec) ∈ analyze_feature_sentiment rows hasRating features ↔
      ∃ c, (f, c) ∈ mostCommon 20 features ∧ rec = buildRecord rows hasRating f c := by
  unfold analyze_feature_sentiment
  rw [List.mem_map]
  constructor
  · rintro ⟨⟨g, c⟩, hmem, heq⟩
    cases heq
    exact ⟨c, hmem, rfl⟩
  · rintro ⟨c, hmem, rfl⟩
    exact ⟨(f, c), hmem, rfl⟩

/-- C2: every record of the feature analysis table has ratio fields summing
exactly to 1, in particular when the feature has at least one classified
sentiment mention. -/
theorem ratio_sum_eq_one (rows : List RowPair) (hasRating : Bool)
    (features : List (String × Nat)) (f : String) (rec : FeatureRecord)
    (hmem : (f, rec) ∈ analyze_feature_sentiment rows hasRating features)
    (hne : featureSentiments rows f ≠ []) :
    rec.positive_ratio + rec.negative_ratio + rec.neutral_ratio = 1 := by
  obtain ⟨c, hmem2, rfl⟩ := mem_analyze_iff.mp hmem
  simp only [buildRecord]
  ring

/-- Witness for C2 on a one-row table whose single review mentions the
feature once. -/
theorem ratio_sum_eq_one_witness :
    ("battery", buildRecord [(Cell.str "good battery", Cell.na)] false "battery" 1) ∈
      analyze_feature_sentiment [(Cell.str "good battery", Cell.na)] false [("battery", 1)] ∧
    featureSentiments [(Cell.str "good battery", Cell.na)] "battery" ≠ [] ∧
    (buildRecord [(Cell.str "good battery", Cell.na)] false "battery" 1).positive_ratio +
      (buildRecord [(Cell.str "good battery", Cell.na)] false "battery" 1).negative_ratio +
      (buildRecord [(Cell.str "good battery", Cell.na)] false "battery" 1).neutral_ratio = 1 := by
  have hmem : ("battery", buildRecord [(Cell.str "good battery", Cell.na)] false "battery" 1) ∈
      analyze_feature_sentiment [(Cell.str "good battery", Cell.na)] false [("battery", 1)] := by
    rw [show analyze_feature_sentiment [(Cell.str "good battery", Cell.na)] false [("battery", 1)] =
      [("battery", buildRecord [(Cell.str "good battery", Cell.na)] false "battery" 1)] from rfl]
    exact List.mem_singleton.mpr rfl
  exact ⟨hmem, by decide,
    ratio_sum_eq_one [(Cell.str "good battery", Cell.na)] false [("battery", 1)] "battery"
      (buildRecord [(Cell.str "good battery", Cell.na)] false "battery" 1)
      hmem (by decide)⟩

/-- C1 counterexample: on the one-review table `the power is fine` (rating
4), the feature `battery` is in the top-20 with zero classified sentiment
mentions and zero recorded ratings, yet its `neutral_ratio` is 1 and not 0
as the claim states. -/
theorem zeroMention_neutral_ratio_cex :
    featureSentiments [(Cell.str "the power is fine", Cell.num 4)] "battery" = [] ∧
    featureRatings [(Cell.str "the power is fine", Cell.num 4)] true "battery" = [] ∧
    ((analyze_feature_sentiment [(Cell.str "the power is fine", Cell.num 4)] true
        (extract_features_from_reviews [Cell.str "the power is fine"])).lookup "battery").map
      FeatureRecord.neutral_ratio = some 1 ∧
    ¬ ((analyze_feature_sentiment [(Cell.str "the power is fine", Cell.num 4)] true
        (extract_features_from_reviews [Cell.str "the power is fine"])).lookup "battery").map
      FeatureRecord.neutral_ratio = some 0 := by
  have hs : featureSentiments [(Cell.str "the power is fine", Cell.num 4)] "battery" = [] := by
    decide
  have hl : (analyze_feature_sentiment [(Cell.str "the power is fine", Cell.num 4)] true
      (extract_features_from_reviews [Cell.str "the power is fine"])).lookup "battery" =
      some (buildRecord [(Cell.str "the power is fine", Cell.num 4)] true "battery" 1) := rfl
  refine ⟨hs, by decide, ?_, ?_⟩ <;> rw [hl] <;> simp [buildRecord, hs]

/-- C1 as amended: a top-20 feature with zero classified sentiment mentions
gets `positive_ratio = 0`, `negative_ratio = 0` and `neutral_ratio = 1`
(not 0), and `avg_rating = 0` when it also has zero recorded ratings. -/
theorem zeroMention_ratios (rows : List RowPair) (hasRating : Bool)
    (features : List (String × Nat)) (f : String) (rec : FeatureRecord)
    (hmem : (f, rec) ∈ analyze_feature_sentiment rows hasRating features)
    (hs : featureSentiments rows f = []) :
    rec.positive_ratio = 0 ∧ rec.negative_ratio = 0 ∧ rec.neutral_ratio = 1 ∧
    (featureRatings rows hasRating f = [] → rec.avg_rating = 0) := by
  obtain ⟨c, hmem2, rfl⟩ := mem_analyze_iff.mp hmem
  refine ⟨?_, ?_, ?_, ?_⟩ <;> simp [buildRecord, hs]
  intro hr
  simp [hr]

/-- Witness for C1 as amended, at the `the power is fine` table. -/
theorem zeroMention_ratios_witness :
    ("battery", buildRecord [(Cell.str "the power is fine", Cell.num 4)] true "battery" 1) ∈
      analyze_feature_sentiment [(Cell.str "the power is fine", Cell.num 4)] true [("battery", 1)] ∧
    featureSentiments [(Cell.str "the power is fine", Cell.num 4)] "battery" = [] ∧
    ((buildRecord [(Cell.str "the power is fine", Cell.num 4)] true "battery" 1).positive_ratio = 0 ∧
      (buildRecord [(Cell.str "the power is fine", Cell.num 4)] true "battery" 1).negative_ratio = 0 ∧
      (buildRecord [(Cell.str "the power is fine", Cell.num 4)] true "battery" 1).neutral_ratio = 1 ∧
      (featureRatings [(Cell.str "the power is fine", Cell.num 4)] true "battery" = [] →
        (buildRecord [(Cell.str "the power is fine", Cell.num 4)] true "battery" 1).avg_rating = 0)) := by
  have hmem : ("battery", buildRecord [(Cell.str "the power is fine", Cell.num 4)] true "battery" 1) ∈
      analyze_feature_sentiment [(Cell.str "the power is fine", Cell.num 4)] true [("battery", 1)] := by
    rw [show analyze_feature_sentiment [(Cell.str "the power is fine", Cell.num 4)] true [("battery", 1)] =
      [("battery", buildRecord [(Cell.str "the power is fine", Cell.num 4)] true "battery" 1)] from rfl]
    exact List.mem_singleton.mpr rfl
  exact ⟨hmem, by decide,
    zeroMention_ratios [(Cell.str "the power is fine", Cell.num 4)] true [("battery", 1)] "battery"
      (buildRecord [(Cell.str "the power is fine", Cell.num 4)] true "battery" 1)
      hmem (by decide)⟩

/-- The bigram loop only appends labels, so it keeps every label already
accumulated. -/
theorem mem_addBigrams (x : String) :
    ∀ (ws : List (List Char)) (acc : List String), x ∈ acc → x ∈ addBigrams ws acc
  | [], _, h => h
  | [_], _, h => h
  | w1 :: w2 :: rest, acc, h => by
    simp only [addBigrams]
    split
    · exact mem_addBigrams x (w2 :: rest) _ (by
        split
        · exact List.mem_append_left _ h
        · exact h)
    · exact mem_addBigrams x (w2 :: rest) acc h

/-- C4 counterexample: the review `batterys` contains the substring
`battery` but gets no `battery` label (the pattern requires word
boundaries), and the review `the usability` contains the substring
`usability` but gets no `usability` label (the name `usability` is not
among the alternatives of its own pattern). -/
theorem substring_label_cex :
    (containsSub (lower "batterys") ("battery".toList) = true ∧
      "battery" ∉ reviewFeatures (lower "batterys") ∧
      (extract_features_from_reviews [Cell.str "batterys"]).lookup "battery" = none) ∧
    (containsSub (lower "the usability") ("usability".toList) = true ∧
      "usability" ∉ reviewFeatures (lower "the usability") ∧
      (extract_features_from_reviews [Cell.str "the usability"]).lookup "usability" = none) := by
  refine ⟨⟨by decide, by decide, by decide⟩, ⟨by decide, by decide, by decide⟩⟩

/-- C4 as amended: a review whose lowercased text matches a category's
pattern (a whole-word occurrence of one of its alternatives) is assigned
that category's label; and for every category except `usability` the
category name itself is one of its pattern alternatives, so a whole-word
occurrence of the name yields the label. -/
theorem pattern_match_label :
    (∀ (review : List Char) (p : String × List RAlt), p ∈ feature_patterns →
      rsearchWB review p.2 = true → p.1 ∈ reviewFeatures review) ∧
    (∀ p ∈ feature_patterns, p.1 = "usability" ∨ litAlt p.1 ∈ p.2) := by
  constructor
  · intro review p hp hsearch
    have hpf : p.1 ∈ feature_patterns.filterMap (fun q =>
        if rsearchWB review q.2 then some q.1 else none) :=
      List.mem_filterMap.mpr ⟨p, hp, by rw [hsearch]; rfl⟩
    exact mem_addBigrams p.1 (splitWs review) _ hpf
  · decide

/-- Witness for C4 as amended, at the review `battery dies`. -/
theorem pattern_match_label_witness :
    ("battery", [litAlt "battery", litAlt "power", litAlt "charging", litAlt "charge"]) ∈
      feature_patterns ∧
    rsearchWB (lower "battery dies")
      [litAlt "battery", litAlt "power", litAlt "charging", litAlt "charge"] = true ∧
    "battery" ∈ reviewFeatures (lower "battery dies") :=
  ⟨by decide, by decide,
    pattern_match_label.1 (lower "battery dies")
      ("battery", [litAlt "battery", litAlt "power", litAlt "charging", litAlt "charge"])
      (by decide) (by decide)⟩

/-- Length of a `filterMap` as a `countP`, given the success predicate. -/
theorem length_filterMap_eq_countP {α β : Type} (g : α → Option β) (p : α → Bool)
    (hg : ∀ a, (g a).isSome = p a) :
    ∀ l : List α, (l.filterMap g).length = l.countP p
  | [] => rfl
  | a :: l => by
    rw [List.filterMap_cons, List.countP_cons, ← length_filterMap_eq_countP g p hg l, ← hg a]
    cases g a <;> simp [Option.isSome]

/-- C5 counterexample: on the embedded sample data, the `camera` record
collects the ratings `[5, 4]` (the second review, rated 3, does not contain
`camera`), so its average rating is 4.5 and not 4.0 as claimed. -/
theorem sample_camera_avg_cex :
    featureRatings sampleRows true "camera" = [5, 4] ∧
    sampleAnalysis.lookup "camera" = some (buildRecord sampleRows true "camera" 2) ∧
    (buildRecord sampleRows true "camera" 2).avg_rating = 9 / 2 ∧
    ¬ (buildRecord sampleRows true "camera" 2).avg_rating = 4 := by
  have hr : featureRatings sampleRows true "camera" = [5, 4] := by decide
  refine ⟨hr, rfl, ?_, ?_⟩ <;> simp [buildRecord, hr] <;> norm_num

/-- C5 as amended: on the sample data, `camera` collects the ratings 5 and 4
(average 4.5) and `battery` collects the ratings 5 and 2 (average 3.5). -/
theorem sample_avg_ratings :
    featureRatings sampleRows true "camera" = [5, 4] ∧
    sampleAnalysis.lookup "camera" = some (buildRecord sampleRows true "camera" 2) ∧
    (buildRecord sampleRows true "camera" 2).avg_rating = 9 / 2 ∧
    featureRatings sampleRows true "battery" = [5, 2] ∧
    sampleAnalysis.lookup "battery" = some (buildRecord sampleRows true "battery" 3) ∧
    (buildRecord sampleRows true "battery" 3).avg_rating = 7 / 2 := by
  have hrc : featureRatings sampleRows true "camera" = [5, 4] := by decide
  have hrb : featureRatings sampleRows true "battery" = [5, 2] := by decide
  refine ⟨hrc, rfl, ?_, hrb, rfl, ?_⟩ <;> simp [buildRecord, hrc, hrb] <;> norm_num

/-- C6 counterexample: in the review `camera camera` the feature substring
`camera` occurs twice, yet the review contributes exactly one sentiment
classification to the totals of the top-20 feature `camera`, not two. -/
theorem per_mention_classification_cex :
    mostCommon 20 (extract_features_from_reviews [Cell.str "camera camera"]) = [("camera", 1)] ∧
    countOccurrences (lower "camera camera") ("camera".toList) = 2 ∧
    (featureSentiments [(Cell.str "camera camera", Cell.na)] "camera").length = 1 ∧
    ¬ (featureSentiments [(Cell.str "camera camera", Cell.na)] "camera").length =
        countOccurrences (lower "camera camera") ("camera".toList) := by
  refine ⟨by decide, by decide, by decide, by decide⟩

/-- C6 as amended: a feature receives exactly one sentiment classification
per non-null review whose lowercased text contains the feature substring,
regardless of how many times the substring occurs in that review. -/
theorem per_review_classification (rows : List RowPair) (f : String) :
    (featureSentiments rows f).length =
      rows.countP (fun r =>
        match r.1 with
        | Cell.str s => containsSub (lower s) f.toList
        | _ => false) := by
  refine length_filterMap_eq_countP _ _ (fun r => ?_) rows
  rcases r with ⟨rv, rt⟩
  cases rv with
  | na => rfl
  | num q => rfl
  | str s => by_cases hc : containsSub (lower s) f.data = true <;> simp [hc]

/-- C7: the loader selects as text column the first column in table column
order whose lowercased name contains one of the review keywords, and when no
column matches, `analyze_product_features` returns early (modelled as
`none`, the total function raising no exception) without producing any
output. -/
theorem loader_column_selection :
    (∀ (cols : List String) (c : String), findCol review_keywords cols = some c →
      colMatches review_keywords c = true ∧
      ∃ pre post, cols = pre ++ c :: post ∧ ∀ d ∈ pre, colMatches review_keywords d = false) ∧
    (∀ df : Frame, (∀ c ∈ df.map Prod.fst, colMatches review_keywords c = false) →
      analyze_product_features df = none) := by
  constructor
  · intro cols
    induction cols with
    | nil => intro c h; simp [findCol] at h
    | cons c0 rest ih =>
      intro c h
      simp only [findCol, List.filter_cons] at h
      by_cases h0 : colMatches review_keywords c0 = true
      · rw [if_pos h0] at h
        simp only [List.head?_cons, Option.some.injEq] at h
        subst h
        exact ⟨h0, [], rest, rfl, by simp⟩
      · rw [if_neg h0] at h
        obtain ⟨hm, pre, post, heq, hpre⟩ := ih c h
        refine ⟨hm, c0 :: pre, post, by rw [heq]; rfl, ?_⟩
        intro d hd
        rcases List.mem_cons.mp hd with rfl | hd2
        · simpa using h0
        · exact hpre d hd2
  · intro df hnone
    have hfil : (df.map Prod.fst).filter (colMatches review_keywords) = [] :=
      List.filter_eq_nil_iff.mpr (fun a ha => by simp [hnone a ha])
    have hfe : findCol review_keywords (df.map Prod.fst) = none := by
      simp [findCol, hfil]
    simp [analyze_product_features, hfe]

/-- Witness for C7: the column `review_text` is selected among
`[id, review_text]`, and a frame with only non-matching columns yields no
output. -/
theorem loader_column_selection_witness :
    (colMatches review_keywords "review_text" = true ∧
      ∃ pre post, ["id", "review_text"] = pre ++ "review_text" :: post ∧
        ∀ d ∈ pre, colMatches review_keywords d = false) ∧
    analyze_product_features [("id", [Cell.num 1]), ("rating", [Cell.num 5])] = none :=
  ⟨loader_column_selection.1 ["id", "review_text"] "review_text" (by decide),
    loader_column_selection.2 [("id", [Cell.num 1]), ("rating", [Cell.num 5])] (by decide)⟩

end ProductExtractor
